import Mathlib

/-!
Verification of the porepy mixed-dimensional assembly core and the
`porepy.fracs.simplex` gmsh-import helpers.

Part A embeds, as Lean functions over character lists (modelling Python
strings), the file-name handling and default-argument normalization of
`src/src/porepy/fracs/simplex.py`.

Part B models the mixed-dimensional mesh graph and the upwind assembly
engine.  The corresponding Python modules (`porepy.grids.grid_bucket`,
`porepy.numerics.mixed_dim.coupler`, `porepy.numerics.fv.transport.upwind`
and `upwind_coupling`) are not present under `src/`; only their unit test
`src/test/unit/test_upwind_coupling.py` is.  Those definitions are
therefore modelled from the specification (sections 3, 4.1, 4.4 and 4.5),
with per-face fluxes taken as precomputed inputs exactly as the spec
prescribes ("precomputed and stored as an edge property"), and the
projection operators already applied so that mortar faces carry the
endpoint cell indices they couple.
-/

/-! ## Part A: embedding of `src/src/porepy/fracs/simplex.py` -/

/-- The four-character suffix ".msh" used by all gmsh import helpers. -/
def mshSuffix : List Char := ['.', 'm', 's', 'h']

/-- The four-character suffix ".geo" recognized by `triangle_grid_embedded`. -/
def geoSuffix : List Char := ['.', 'g', 'e', 'o']

/-- Embedded from `triangle_grid_from_gmsh` (simplex.py lines 113-115), and
identically `line_grid_from_gmsh` (lines 186-188) and
`tetrahedral_grid_from_gmsh` (lines 257-259): if the given file name ends
with ".msh" the suffix is stripped (`file_name[:-4]`), and ".msh" is then
appended to obtain the file that is actually read. -/
def gmshOutFile (file_name : List Char) : List Char :=
  (if mshSuffix.isSuffixOf file_name then file_name.take (file_name.length - 4)
   else file_name) ++ mshSuffix

/-- Embedded from `triangle_grid_embedded` (simplex.py lines 46-49): the
Python test `file_name[-4:] == ".geo" or file_name[-4:] == ".msh"` is
modelled by comparing the last four characters (`List.drop (length - 4)`,
which like Python's slice returns the whole list when it is shorter than
four characters); a matching ".geo" or ".msh" suffix is stripped before
".msh" is appended. -/
def embeddedOutFile (file_name : List Char) : List Char :=
  (if (file_name.drop (file_name.length - 4) == geoSuffix)
      || (file_name.drop (file_name.length - 4) == mshSuffix) then
    file_name.take (file_name.length - 4)
   else file_name) ++ mshSuffix

/-- Embedded from simplex.py lines 108-109 and 181-182: a `None` value for
the `constraints` argument is replaced by an empty integer array
(`np.empty(0, dtype=int)`) before any other use. -/
def normalizeConstraints (constraints : Option (List ℤ)) : List ℤ :=
  match constraints with
  | none => []
  | some c => c

/-- Embedded from `triangle_grid_from_gmsh` (simplex.py lines 85-155).  The
helpers `_read_gmsh_file`, `msh_2_grid.create_2d_grids`, `create_1d_grids`
and `create_0d_grids` are external to this function and are abstracted as
parameters; the function normalizes `constraints`, reads the gmsh file
named by `gmshOutFile`, and builds the three lists of grids, passing the
normalized constraints and the keyword arguments to `create_1d_grids`. -/
def triangle_grid_from_gmsh {α β γ δ κ : Type} (readGmsh : List Char → α)
    (create2d : α → β) (create1d : α → List ℤ → κ → γ) (create0d : α → δ)
    (file_name : List Char) (constraints : Option (List ℤ)) (kwargs : κ) :
    β × γ × δ :=
  let cs := normalizeConstraints constraints
  let data := readGmsh (gmshOutFile file_name)
  (create2d data, create1d data cs kwargs, create0d data)

/-- Embedded from `line_grid_from_gmsh` (simplex.py lines 158-225), with the
external helpers abstracted as parameters exactly as in
`triangle_grid_from_gmsh`. -/
def line_grid_from_gmsh {α γ δ κ : Type} (readGmsh : List Char → α)
    (create1d : α → List ℤ → κ → γ) (create0d : α → δ)
    (file_name : List Char) (constraints : Option (List ℤ)) (kwargs : κ) :
    γ × δ :=
  let cs := normalizeConstraints constraints
  let data := readGmsh (gmshOutFile file_name)
  (create1d data cs kwargs, create0d data)

/-! ## Theorems for claims C9 and C10 -/

/-- Claim C9, counterexample: the derived "so"-clause of the claim fails for
an input that already ends in ".msh".  With `name = "a.msh"`, calling a
gmsh import helper with `name` reads "a.msh" while calling it with
`name + ".msh"` reads "a.msh.msh": not the same file. -/
theorem gmshOutFile_same_file_cex :
    gmshOutFile (('a' :: mshSuffix) ++ mshSuffix) ≠ gmshOutFile ('a' :: mshSuffix) := by
  decide

/-- Claim C9 (amended): `triangle_grid_from_gmsh`, `line_grid_from_gmsh` and
`tetrahedral_grid_from_gmsh` read the file obtained from the input by
stripping a trailing ".msh" (if present) and appending ".msh"; consequently
calling them with `name` and with `name + ".msh"` reads the same file
whenever `name` does not itself already end in ".msh"; and
`triangle_grid_embedded` additionally strips a trailing ".geo" before
appending ".msh". -/
theorem gmshOutFile_normalizes (name : List Char)
    (h : ¬ mshSuffix.isSuffixOf name = true) :
    gmshOutFile name = name ++ mshSuffix ∧
    gmshOutFile (name ++ mshSuffix) = name ++ mshSuffix ∧
    embeddedOutFile (name ++ geoSuffix) = name ++ mshSuffix := by
  refine ⟨?_, ?_, ?_⟩
  · rw [gmshOutFile, if_neg h]
  · have hs : mshSuffix.isSuffixOf (name ++ mshSuffix) = true := by
      rw [List.isSuffixOf_iff_suffix]
      exact List.suffix_append name mshSuffix
    have hlen : (name ++ mshSuffix).length - 4 = name.length := by
      simp [mshSuffix]
    rw [gmshOutFile, if_pos hs, hlen, List.take_left]
  · have hlen : (name ++ geoSuffix).length - 4 = name.length := by
      simp [geoSuffix]
    have hdrop : (name ++ geoSuffix).drop ((name ++ geoSuffix).length - 4) = geoSuffix := by
      rw [hlen, List.drop_left]
    rw [embeddedOutFile, hdrop]
    simp [List.take_left, geoSuffix, mshSuffix]

/-- Claim C9 witness: instantiation at the one-character name "a". -/
theorem gmshOutFile_normalizes_witness :
    gmshOutFile ['a'] = ['a'] ++ mshSuffix ∧
    gmshOutFile (['a'] ++ mshSuffix) = ['a'] ++ mshSuffix ∧
    embeddedOutFile (['a'] ++ geoSuffix) = ['a'] ++ mshSuffix :=
  gmshOutFile_normalizes ['a'] (by decide)

/-- Claim C10: calling `triangle_grid_from_gmsh` or `line_grid_from_gmsh`
with `constraints = None` gives the same result as calling it with an empty
integer array, for every file name, every keyword argument and every
behaviour of the external gmsh-reading and grid-creation helpers: the
`None` default is normalized to the empty array before any other use. -/
theorem constraints_none_eq_empty {α β γ δ κ : Type} (readGmsh : List Char → α)
    (create2d : α → β) (create1d : α → List ℤ → κ → γ) (create0d : α → δ)
    (file_name : List Char) (kwargs : κ) :
    triangle_grid_from_gmsh readGmsh create2d create1d create0d file_name none kwargs =
      triangle_grid_from_gmsh readGmsh create2d create1d create0d file_name (some []) kwargs ∧
    line_grid_from_gmsh readGmsh create1d create0d file_name none kwargs =
      line_grid_from_gmsh readGmsh create1d create0d file_name (some []) kwargs :=
  ⟨rfl, rfl⟩

/-! ## Part B: model of the mixed-dimensional mesh graph and assembly engine

Modelled from the spec (sections 3, 4.1, 4.4, 4.5): the Python modules
implementing them are not under `src/`. -/

/-- Modelled from the spec: an interior face of a single mesh, carrying the
precomputed signed flux from cell `c1` to cell `c2`. -/
structure InteriorFace where
  c1 : ℕ
  c2 : ℕ
  flux : ℚ

/-- Modelled from the spec: a boundary face of a single mesh, carrying the
precomputed signed outward flux of its cell and, when the face carries a
Dirichlet boundary condition, the prescribed boundary value. -/
structure BoundaryFace where
  cell : ℕ
  flux : ℚ
  dirichlet : Option ℚ

/-- Modelled from the spec (section 3): a single-dimension mesh.  Its
geometric quantities are abstracted into the per-face fluxes, which the
spec says are precomputed. -/
structure Mesh where
  dim : ℕ
  numCells : ℕ
  interiorFaces : List InteriorFace
  boundaryFaces : List BoundaryFace

instance : Inhabited Mesh := ⟨⟨0, 0, [], []⟩⟩

/-- Modelled from the spec (section 4.4): one mortar face of an interface,
already projected onto the two endpoint meshes, so that it records the
parent cell and child cell it couples together with the precomputed
normal flux oriented from parent into child. -/
structure MortarFace where
  parentCell : ℕ
  childCell : ℕ
  flux : ℚ

/-- Modelled from the spec (section 3): a mesh-graph edge from the
higher-dimensional parent node to the lower-dimensional child node (both
given as indices into the graph's node list), its interface described by
its mortar faces, and the coupling operator's own unknown count
(`numDofs`, zero for purely algebraic couplings such as upwind). -/
structure Edge where
  parent : ℕ
  child : ℕ
  numDofs : ℕ
  mortarFaces : List MortarFace

instance : Inhabited Edge := ⟨⟨0, 0, 0, []⟩⟩

/-- Modelled from the spec (section 3): the mixed-dimensional mesh graph. -/
structure MeshGraph where
  nodes : List Mesh
  edges : List Edge

/-- Modelled from the spec (section 4.4): the upwind donor rule for a face
joining unknowns `i` and `j` with signed flux `phi` from `i` to `j`: the
donor side contributes the flux magnitude on its own diagonal and the
negative of it on the receiving side's off-diagonal row; a flux of exactly
zero contributes nothing. -/
def upwindEntries (i j : ℕ) (phi : ℚ) : List (ℕ × ℕ × ℚ) :=
  if 0 < phi then [(i, i, phi), (j, i, -phi)]
  else if phi < 0 then [(j, j, -phi), (i, j, phi)]
  else []

/-- Modelled from the spec: the per-mesh upwind transport discretization
applies the donor rule of section 4.4 to every interior face, and adds the
outward flux of an outflow boundary face to the diagonal of its cell when
that face carries a Dirichlet condition. -/
def Mesh.localMatrixEntries (m : Mesh) : List (ℕ × ℕ × ℚ) :=
  (m.interiorFaces.map (fun f => upwindEntries f.c1 f.c2 f.flux)).flatten
  ++ m.boundaryFaces.filterMap (fun f =>
      match f.dirichlet with
      | some _ => if 0 < f.flux then some (f.cell, f.cell, f.flux) else none
      | none => none)

/-- Modelled from the spec: the per-mesh right-hand side receives, for every
inflow boundary face carrying a Dirichlet condition, the inflow magnitude
times the prescribed boundary value. -/
def Mesh.localRhsEntries (m : Mesh) : List (ℕ × ℚ) :=
  m.boundaryFaces.filterMap (fun f =>
    match f.dirichlet with
    | some v => if f.flux < 0 then some (f.cell, -f.flux * v) else none
    | none => none)

/-- Modelled from the spec (section 4.1): stable insertion of a node index
into an index list ordered by descending dimension; an index is inserted
before the first index of strictly smaller dimension, so that indices of
equal dimension keep their relative order. -/
def insertByDim (dims : ℕ → ℕ) (k : ℕ) : List ℕ → List ℕ
  | [] => [k]
  | a :: t => if dims a < dims k then k :: a :: t else a :: insertByDim dims k t

/-- Modelled from the spec (section 4.1): insertion sort of node indices by
descending dimension, stable with respect to the original order. -/
def orderNodes (dims : ℕ → ℕ) : List ℕ → List ℕ
  | [] => []
  | a :: t => insertByDim dims a (orderNodes dims t)

/-- Modelled from the spec (section 4.1): `assign_node_ordering` freezes a
deterministic total order over the graph nodes, by descending dimension
and then by insertion order within a dimension.  The order is returned as
the list of node indices in frozen order. -/
def MeshGraph.assign_node_ordering (g : MeshGraph) : List ℕ :=
  orderNodes (fun k => (g.nodes.getD k default).dim) (List.range g.nodes.length)

/-- Modelled from the spec (section 4.5 step 2): the DOF-map sizes, one per
node in frozen node order (the local matrix size of the node's
discretization, here the cell count) followed by one per edge (the
coupling operator's own unknown count). -/
def MeshGraph.dofSizes (g : MeshGraph) : List ℕ :=
  g.assign_node_ordering.map (fun k => (g.nodes.getD k default).numCells)
  ++ g.edges.map Edge.numDofs

/-- Modelled from the spec (section 4.5 step 2): the start of the `k`-th
contiguous DOF range is the sum of the sizes assigned before it. -/
def dofStart (sizes : List ℕ) (k : ℕ) : ℕ := (sizes.take k).sum

/-- Modelled from the spec (section 3): the contiguous integer range of
degrees of freedom assigned to the `k`-th handle. -/
def dofRange (sizes : List ℕ) (k : ℕ) : Finset ℕ :=
  Finset.Ico (dofStart sizes k) (dofStart sizes k + sizes.getD k 0)

/-- Modelled from the spec: the total number of degrees of freedom. -/
def MeshGraph.totalDof (g : MeshGraph) : ℕ := g.dofSizes.sum

/-- Modelled from the spec: the global DOF offset of node `k` is the start
of its range, located through the node's position in the frozen order. -/
def MeshGraph.nodeOffset (g : MeshGraph) (k : ℕ) : ℕ :=
  dofStart g.dofSizes (g.assign_node_ordering.indexOf k)

/-- Modelled from the spec (section 4.4): the coupling contributions of one
mortar face, with the donor rule applied to the globally indexed parent
and child cells (`po` and `co` are the DOF offsets of the two endpoint
meshes). -/
def couplingEntries (po co : ℕ) (f : MortarFace) : List (ℕ × ℕ × ℚ) :=
  upwindEntries (po + f.parentCell) (co + f.childCell) f.flux

/-- Sum of the values of all matrix contributions at global position
`(i, j)`. -/
def entrySum (l : List (ℕ × ℕ × ℚ)) (i j : ℕ) : ℚ :=
  (l.map (fun t => if t.1 = i ∧ t.2.1 = j then t.2.2 else 0)).sum

/-- Sum of the values of all right-hand-side contributions at global row
`i`. -/
def rhsSum (l : List (ℕ × ℚ)) (i : ℕ) : ℚ :=
  (l.map (fun t => if t.1 = i then t.2 else 0)).sum

/-- Shift a local matrix contribution to the global indexing of its mesh. -/
def shiftEntry (off : ℕ) (t : ℕ × ℕ × ℚ) : ℕ × ℕ × ℚ :=
  (off + t.1, off + t.2.1, t.2.2)

/-- Modelled from the spec (section 4.5 steps 3-4): the list of all global
matrix contributions: every node's local matrix inserted at its diagonal
block, then every edge's coupling contributions inserted at the
intersections of the parent's and child's DOF ranges. -/
def MeshGraph.matrixEntries (g : MeshGraph) : List (ℕ × ℕ × ℚ) :=
  ((List.range g.nodes.length).map (fun k =>
      ((g.nodes.getD k default).localMatrixEntries).map (shiftEntry (g.nodeOffset k)))).flatten
  ++ (g.edges.map (fun e =>
      (e.mortarFaces.map (couplingEntries (g.nodeOffset e.parent) (g.nodeOffset e.child))).flatten)).flatten

/-- Modelled from the spec: the list of all global right-hand-side
contributions. -/
def MeshGraph.rhsEntries (g : MeshGraph) : List (ℕ × ℚ) :=
  ((List.range g.nodes.length).map (fun k =>
      ((g.nodes.getD k default).localRhsEntries).map (fun t => (g.nodeOffset k + t.1, t.2)))).flatten

/-- Modelled from the spec (section 4.5 step 5): the assembled global
matrix. -/
def MeshGraph.matrix (g : MeshGraph) (i j : ℕ) : ℚ := entrySum g.matrixEntries i j

/-- Modelled from the spec (section 4.5 step 5): the assembled global
right-hand side. -/
def MeshGraph.rhs (g : MeshGraph) (i : ℕ) : ℚ := rhsSum g.rhsEntries i

/-- Modelled from the spec: `Coupler.matrix_rhs` returns the assembled
global matrix and right-hand side. -/
def MeshGraph.matrix_rhs (g : MeshGraph) : (ℕ → ℕ → ℚ) × (ℕ → ℚ) := (g.matrix, g.rhs)

/-- Modelled from the spec (section 4.1): `sorted_nodes_of_edge` returns the
two endpoint meshes of an edge sorted by dimension.  The spec's prose says
"higher-dimension first", but the unit test `test_upwind_2d_beta_positive`
stores the edge flux from the second returned handle and its expected
matrix requires that flux to be the higher-dimensional grid's face flux
(magnitude 2, not the lower-dimensional grid's 0), so the function must
return the lower-dimensional endpoint first; this matches porepy's
`GridBucket`, whose documentation promises ascending dimension. -/
def MeshGraph.sorted_nodes_of_edge (g : MeshGraph) (e : Edge) : Mesh × Mesh :=
  let p := g.nodes.getD e.parent default
  let c := g.nodes.getD e.child default
  if p.dim ≤ c.dim then (p, c) else (c, p)

/-! ## Concrete instance: the single-fracture 4x2 Cartesian grid

Modelled from `test_upwind_2d_beta_positive` and
`test_upwind_2d_full_beta_bc_dir` in `src/test/unit/test_upwind_coupling.py`:
`f = [[2, 2], [0, 2]]` meshed by `cart_grid([f], [4, 2])` gives a 2-d grid of
eight unit cells (cells 0-3 the bottom row left to right, cells 4-7 the top
row) on the rectangle `[0,4] x [0,2]`, split along the fracture line
`x = 2`, and a 1-d fracture grid of two unit cells.  In the frozen node
order the 2-d cells get global DOFs 0-7 and the 1-d cells DOFs 8-9; the
expected coupling pattern of the test (row 8 couples with cells 5 and 6,
row 9 with cells 1 and 2) shows that local 1-d cell 0 (DOF 8) is the upper
fracture cell and local cell 1 (DOF 9) the lower one.  Every face flux is
the prescribed field `beta` dotted with the outward face normal times the
unit face area. -/

/-- The 2-d mesh with flux field `beta = (2, 0, 0)` and no boundary
conditions:  the four interior vertical faces carry flux 2 rightwards, the
four interior horizontal faces carry flux 0, and all boundary faces
(domain boundary and the four fracture-adjacent faces, listed last) carry
no Dirichlet data. -/
def mesh2dBeta2 : Mesh :=
  ⟨2, 8,
   [⟨0, 1, 2⟩, ⟨2, 3, 2⟩, ⟨4, 5, 2⟩, ⟨6, 7, 2⟩,
    ⟨0, 4, 0⟩, ⟨1, 5, 0⟩, ⟨2, 6, 0⟩, ⟨3, 7, 0⟩],
   [⟨0, -2, none⟩, ⟨4, -2, none⟩, ⟨3, 2, none⟩, ⟨7, 2, none⟩,
    ⟨0, 0, none⟩, ⟨1, 0, none⟩, ⟨2, 0, none⟩, ⟨3, 0, none⟩,
    ⟨4, 0, none⟩, ⟨5, 0, none⟩, ⟨6, 0, none⟩, ⟨7, 0, none⟩,
    ⟨1, 2, none⟩, ⟨2, -2, none⟩, ⟨5, 2, none⟩, ⟨6, -2, none⟩]⟩

/-- The 1-d fracture mesh for `beta = (2, 0, 0)`: the fracture is vertical,
so its tangential flux is zero on its one interior face and both endpoint
faces. -/
def mesh1dBeta2 : Mesh :=
  ⟨1, 2, [⟨1, 0, 0⟩], [⟨1, 0, none⟩, ⟨0, 0, none⟩]⟩

/-- The interface for `beta = (2, 0, 0)`: four mortar faces (both sides of
the fracture in both rows), with normal flux oriented from the 2-d parent
into the 1-d child: +2 on the left side of the fracture (cells 1 and 5),
-2 on the right side (cells 2 and 6). -/
def edgeBeta2 : Edge :=
  ⟨0, 1, 0, [⟨1, 1, 2⟩, ⟨2, 1, -2⟩, ⟨5, 0, 2⟩, ⟨6, 0, -2⟩]⟩

/-- The mesh graph of `test_upwind_2d_beta_positive`. -/
def gb1 : MeshGraph := ⟨[mesh2dBeta2, mesh1dBeta2], [edgeBeta2]⟩

/-- The 2-d mesh with flux field `beta = (1, 1, 0)` (aperture weight 1 in
2-d) and Dirichlet value 3 on every domain boundary face: all interior
faces carry flux 1 (rightwards and upwards), the domain boundary faces
carry Dirichlet data 3, and the four fracture-adjacent faces (listed
last) carry none. -/
def mesh2dBeta11 : Mesh :=
  ⟨2, 8,
   [⟨0, 1, 1⟩, ⟨2, 3, 1⟩, ⟨4, 5, 1⟩, ⟨6, 7, 1⟩,
    ⟨0, 4, 1⟩, ⟨1, 5, 1⟩, ⟨2, 6, 1⟩, ⟨3, 7, 1⟩],
   [⟨0, -1, some 3⟩, ⟨4, -1, some 3⟩, ⟨3, 1, some 3⟩, ⟨7, 1, some 3⟩,
    ⟨0, -1, some 3⟩, ⟨1, -1, some 3⟩, ⟨2, -1, some 3⟩, ⟨3, -1, some 3⟩,
    ⟨4, 1, some 3⟩, ⟨5, 1, some 3⟩, ⟨6, 1, some 3⟩, ⟨7, 1, some 3⟩,
    ⟨1, 1, none⟩, ⟨2, -1, none⟩, ⟨5, 1, none⟩, ⟨6, -1, none⟩]⟩

/-- The 1-d fracture mesh for `beta = (1, 1, 0)` with aperture `1e-1`: the
tangential flux along the fracture is `1 * 1e-1 = 1/10` upwards, through
the interior face (from lower cell 1 into upper cell 0) and both endpoint
faces, which carry Dirichlet value 3. -/
def mesh1dBeta11 : Mesh :=
  ⟨1, 2, [⟨1, 0, 1/10⟩], [⟨1, -1/10, some 3⟩, ⟨0, 1/10, some 3⟩]⟩

/-- The interface for `beta = (1, 1, 0)`: the same four mortar faces with
normal fluxes of magnitude 1 (the x-component of `beta` through unit
fracture faces). -/
def edgeBeta11 : Edge :=
  ⟨0, 1, 0, [⟨1, 1, 1⟩, ⟨2, 1, -1⟩, ⟨5, 0, 1⟩, ⟨6, 0, -1⟩]⟩

/-- The mesh graph of `test_upwind_2d_full_beta_bc_dir`. -/
def gb2 : MeshGraph := ⟨[mesh2dBeta11, mesh1dBeta11], [edgeBeta11]⟩

/-- The 10x10 matrix the claim (and the unit test) expects for
`beta = (2, 0, 0)`, given by its nonzero entries; all other entries are
zero. -/
def Mknown1 : List (ℕ × ℕ × ℚ) :=
  [(0, 0, 2), (1, 0, -2), (1, 1, 2), (2, 2, 2), (2, 9, -2), (3, 2, -2),
   (4, 4, 2), (5, 4, -2), (5, 5, 2), (6, 6, 2), (6, 8, -2), (7, 6, -2),
   (8, 5, -2), (8, 8, 2), (9, 1, -2), (9, 9, 2)]

/-- The 10x10 matrix the claim (and the unit test) expects for
`beta = (1, 1, 0)` with Dirichlet value 3, given by its nonzero entries. -/
def Mknown2 : List (ℕ × ℕ × ℚ) :=
  [(0, 0, 2), (1, 0, -1), (1, 1, 2), (2, 2, 2), (2, 9, -1), (3, 2, -1),
   (3, 3, 2), (4, 0, -1), (4, 4, 2), (5, 1, -1), (5, 4, -1), (5, 5, 2),
   (6, 2, -1), (6, 6, 2), (6, 8, -1), (7, 3, -1), (7, 6, -1), (7, 7, 2),
   (8, 5, -1), (8, 8, 11/10), (8, 9, -1/10), (9, 1, -1), (9, 9, 11/10)]

/-- The right-hand side the claim (and the unit test) expects for
`beta = (1, 1, 0)` with Dirichlet value 3, given by its nonzero rows. -/
def rhsKnown2 : List (ℕ × ℚ) :=
  [(0, 6), (1, 3), (2, 3), (3, 3), (4, 3), (9, 3/10)]

/-! ## Theorems for claims C1 and C2 -/

/-- Claim C1: assembling the upwind-coupled system for the single fracture
`f = [[2,2],[0,2]]` in the 4x2 Cartesian grid with uniform flux field
`beta = (2,0,0)` and aperture `1e-1` produces the 10x10 global matrix with
`M[0,0]=2, M[1,0]=-2, M[1,1]=2, M[2,2]=2, M[2,9]=-2, M[3,2]=-2, M[4,4]=2,
M[5,4]=-2, M[5,5]=2, M[6,6]=2, M[6,8]=-2, M[7,6]=-2, M[8,5]=-2, M[8,8]=2,
M[9,1]=-2, M[9,9]=2` and every other entry zero. -/
theorem upwind_beta_positive_matrix :
    gb1.totalDof = 10 ∧ ∀ i j : Fin 10, gb1.matrix i j = entrySum Mknown1 i j := by
  constructor
  · decide
  · have h0 : gb1.nodeOffset 0 = 0 := by decide
    have h1 : gb1.nodeOffset 1 = 8 := by decide
    have hn : gb1.nodes = [mesh2dBeta2, mesh1dBeta2] := rfl
    have he : gb1.edges = [edgeBeta2] := rfl
    have h : gb1.matrixEntries =
        [(0, 0, 2), (1, 0, -2), (2, 2, 2), (3, 2, -2), (4, 4, 2), (5, 4, -2),
         (6, 6, 2), (7, 6, -2), (1, 1, 2), (9, 1, -2), (9, 9, 2), (2, 9, -2),
         (5, 5, 2), (8, 5, -2), (8, 8, 2), (6, 8, -2)] := by
      norm_num [MeshGraph.matrixEntries, Mesh.localMatrixEntries, upwindEntries,
        couplingEntries, shiftEntry, h0, h1, hn, he,
        mesh2dBeta2, mesh1dBeta2, edgeBeta2, List.range_succ, List.getD]
    intro i j
    rw [MeshGraph.matrix, h]
    fin_cases i <;> fin_cases j <;> norm_num [entrySum, Mknown1]

set_option maxHeartbeats 2000000 in
/-- Claim C2: for the same fracture geometry with Dirichlet boundary value 3
on all domain boundary faces and flux field `(1,1,0)`, the assembled
right-hand side equals `[6,3,3,3,3,0,0,0,0,0.3]` and the assembled matrix
equals the expected one, in which every off-diagonal coupling entry has
magnitude 1 (entries `(9,1), (2,9), (8,5), (6,8)` of `Mknown2`) and the
last two rows carry the diagonal entries `1.1` at `(8,8)` and `(9,9)` and
the off-diagonal entry `-0.1` at `(8,9)`. -/
theorem upwind_full_beta_bc_dir_system :
    (∀ i : Fin 10, gb2.rhs i = rhsSum rhsKnown2 i) ∧
    (∀ i j : Fin 10, gb2.matrix i j = entrySum Mknown2 i j) := by
  have h0 : gb2.nodeOffset 0 = 0 := by decide
  have h1 : gb2.nodeOffset 1 = 8 := by decide
  have hn : gb2.nodes = [mesh2dBeta11, mesh1dBeta11] := rfl
  have he : gb2.edges = [edgeBeta11] := rfl
  constructor
  · have hr : gb2.rhsEntries =
        [(0, 3), (4, 3), (0, 3), (1, 3), (2, 3), (3, 3), (9, 3/10)] := by
      norm_num [MeshGraph.rhsEntries, Mesh.localRhsEntries, h0, h1, hn,
        mesh2dBeta11, mesh1dBeta11, List.range_succ, List.getD,
        List.filterMap_cons]
    intro i
    rw [MeshGraph.rhs, hr]
    fin_cases i <;> norm_num [rhsSum, rhsKnown2]
  · have h : gb2.matrixEntries =
        [(0, 0, 1), (1, 0, -1), (2, 2, 1), (3, 2, -1), (4, 4, 1), (5, 4, -1),
         (6, 6, 1), (7, 6, -1), (0, 0, 1), (4, 0, -1), (1, 1, 1), (5, 1, -1),
         (2, 2, 1), (6, 2, -1), (3, 3, 1), (7, 3, -1),
         (3, 3, 1), (7, 7, 1), (4, 4, 1), (5, 5, 1), (6, 6, 1), (7, 7, 1),
         (9, 9, 1/10), (8, 9, -1/10), (8, 8, 1/10),
         (1, 1, 1), (9, 1, -1), (9, 9, 1), (2, 9, -1),
         (5, 5, 1), (8, 5, -1), (8, 8, 1), (6, 8, -1)] := by
      norm_num [MeshGraph.matrixEntries, Mesh.localMatrixEntries, upwindEntries,
        couplingEntries, shiftEntry, h0, h1, hn, he,
        mesh2dBeta11, mesh1dBeta11, edgeBeta11, List.range_succ, List.getD,
        List.filterMap_cons]
    intro i j
    rw [MeshGraph.matrix, h]
    fin_cases i <;> fin_cases j <;> norm_num [entrySum, Mknown2]

/-! ## DOF-map lemmas for claim C3 -/

lemma dofStart_succ (s : List ℕ) (k : ℕ) :
    dofStart s (k + 1) = dofStart s k + s.getD k 0 := by
  induction s generalizing k with
  | nil => simp [dofStart]
  | cons a t ih =>
    cases k with
    | zero => simp [dofStart]
    | succ k =>
      have h := ih k
      simp only [dofStart, List.take_succ_cons, List.sum_cons, List.getD_cons_succ] at h ⊢
      omega

lemma dofStart_cons_succ (a : ℕ) (t : List ℕ) (k : ℕ) :
    dofStart (a :: t) (k + 1) = a + dofStart t k := by
  simp [dofStart, List.take_succ_cons]

lemma dofStart_mono (s : List ℕ) {k l : ℕ} (h : k ≤ l) :
    dofStart s k ≤ dofStart s l := by
  induction h with
  | refl => exact le_refl _
  | step h ih =>
    exact le_trans ih (by rw [dofStart_succ]; exact Nat.le_add_right _ _)

lemma dofStart_length (s : List ℕ) : dofStart s s.length = s.sum := by
  simp [dofStart]

lemma dofRange_disjoint_lt (s : List ℕ) {k l : ℕ} (h : k < l) :
    Disjoint (dofRange s k) (dofRange s l) := by
  have hkl : dofStart s k + s.getD k 0 ≤ dofStart s l := by
    rw [← dofStart_succ]
    exact dofStart_mono s h
  rw [dofRange, dofRange, Finset.disjoint_left]
  intro x hx hx'
  rw [Finset.mem_Ico] at hx hx'
  omega

lemma dofRange_exists (s : List ℕ) (x : ℕ) (hx : x < s.sum) :
    ∃ k, k < s.length ∧ dofStart s k ≤ x ∧ x < dofStart s k + s.getD k 0 := by
  induction s generalizing x with
  | nil => simp at hx
  | cons a t ih =>
    rcases Nat.lt_or_ge x a with h | h
    · refine ⟨0, by simp, by simp [dofStart], ?_⟩
      simpa [dofStart] using h
    · have hx' : x - a < t.sum := by
        simp only [List.sum_cons] at hx
        omega
      obtain ⟨k, hk, h1, h2⟩ := ih (x - a) hx'
      refine ⟨k + 1, by simpa using hk, ?_, ?_⟩
      · rw [dofStart_cons_succ]
        omega
      · rw [dofStart_cons_succ, List.getD_cons_succ]
        omega

lemma dofRange_biUnion (s : List ℕ) :
    (Finset.range s.length).biUnion (dofRange s) = Finset.range s.sum := by
  ext x
  simp only [Finset.mem_biUnion, Finset.mem_range, dofRange, Finset.mem_Ico]
  constructor
  · rintro ⟨k, hk, h1, h2⟩
    have he : dofStart s k + s.getD k 0 = dofStart s (k + 1) := (dofStart_succ s k).symm
    have h3 : dofStart s (k + 1) ≤ dofStart s s.length := dofStart_mono s (by omega)
    rw [dofStart_length] at h3
    omega
  · intro hx
    exact dofRange_exists s x hx

lemma insertByDim_perm (dims : ℕ → ℕ) (k : ℕ) (l : List ℕ) :
    (insertByDim dims k l).Perm (k :: l) := by
  induction l with
  | nil => exact List.Perm.refl _
  | cons a t ih =>
    rw [insertByDim]
    by_cases h : dims a < dims k
    · rw [if_pos h]
    · rw [if_neg h]
      exact (ih.cons a).trans (List.Perm.swap k a t)

lemma orderNodes_perm (dims : ℕ → ℕ) (l : List ℕ) : (orderNodes dims l).Perm l := by
  induction l with
  | nil => exact List.Perm.refl _
  | cons a t ih =>
    rw [orderNodes]
    exact (insertByDim_perm dims a _).trans (ih.cons a)

lemma map_getD_range (l : List Mesh) (f : Mesh → ℕ) :
    (List.range l.length).map (fun k => f (l.getD k default)) = l.map f := by
  induction l with
  | nil => rfl
  | cons a t ih =>
    rw [List.length_cons, List.range_succ_eq_map, List.map_cons, List.map_map]
    have hc : ((fun k => f ((a :: t).getD k default)) ∘ Nat.succ)
        = (fun k => f (t.getD k default)) := by
      funext k
      simp [List.getD_cons_succ]
    rw [hc, ih]
    simp

lemma dofSizes_sum (g : MeshGraph) :
    g.dofSizes.sum = (g.nodes.map Mesh.numCells).sum + (g.edges.map Edge.numDofs).sum := by
  rw [MeshGraph.dofSizes, List.sum_append]
  congr 1
  have hperm : (g.assign_node_ordering.map (fun k => (g.nodes.getD k default).numCells)).Perm
      ((List.range g.nodes.length).map (fun k => (g.nodes.getD k default).numCells)) :=
    (orderNodes_perm _ _).map _
  rw [hperm.sum_eq, map_getD_range]

/-! ## Theorem for claim C3 -/

/-- Claim C3: for every mesh graph, after `assign_node_ordering` the DOF-map
construction assigns to every node and every edge a contiguous integer
range such that all ranges are pairwise disjoint, their union is exactly
`[0, totalDof)`, and `totalDof` equals the sum of the local sizes over all
nodes and edges. -/
theorem dof_map_partition (g : MeshGraph) :
    (∀ k l, k ≠ l → Disjoint (dofRange g.dofSizes k) (dofRange g.dofSizes l)) ∧
    (Finset.range g.dofSizes.length).biUnion (dofRange g.dofSizes)
      = Finset.range g.totalDof ∧
    g.totalDof = (g.nodes.map Mesh.numCells).sum + (g.edges.map Edge.numDofs).sum := by
  refine ⟨?_, ?_, ?_⟩
  · intro k l hkl
    rcases Nat.lt_or_ge k l with h | h
    · exact dofRange_disjoint_lt _ h
    · have h' : l < k := by omega
      exact (dofRange_disjoint_lt _ h').symm
  · rw [MeshGraph.totalDof]
    exact dofRange_biUnion _
  · rw [MeshGraph.totalDof]
    exact dofSizes_sum g

/-- Claim C3 witness: the DOF ranges of the first two handles of the
concrete fracture graph are disjoint. -/
theorem dof_map_partition_witness :
    Disjoint (dofRange gb1.dofSizes 0) (dofRange gb1.dofSizes 1) :=
  (dof_map_partition gb1).1 0 1 (by decide)

/-! ## Theorem for claim C4 -/

/-- Claim C4: running the assembly engine twice on an unchanged mesh graph
(which in this model carries the property data: fluxes, boundary values
and apertures folded into the per-face data) produces identical global
matrix and right-hand side on both runs; the assembled system is a
function of the inputs alone, with no hidden state.  In this functional
model the engine cannot consult anything but its argument, so determinism
holds definitionally. -/
theorem assembly_deterministic (g g' : MeshGraph) (h : g = g') :
    g.matrix_rhs = g'.matrix_rhs := by
  rw [h]

/-- Claim C4 witness: two runs on the concrete fracture graph agree. -/
theorem assembly_deterministic_witness : gb1.matrix_rhs = gb1.matrix_rhs :=
  assembly_deterministic gb1 gb1 rfl

/-! ## Theorem for claim C6 -/

/-- Claim C6: a mortar face whose stored normal flux is exactly zero
contributes nothing to the coupling: its contribution list is empty, so in
particular both off-diagonal contributions (parent-child and child-parent)
are zero and every diagonal entry is unaffected. -/
theorem zero_flux_no_coupling (po co : ℕ) (f : MortarFace) (h : f.flux = 0) :
    couplingEntries po co f = [] ∧
    ∀ i j : ℕ, entrySum (couplingEntries po co f) i j = 0 := by
  have he : couplingEntries po co f = [] := by
    simp [couplingEntries, upwindEntries, h]
  exact ⟨he, fun i j => by simp [he, entrySum]⟩

/-- Claim C6 witness: a zero-flux mortar face between parent cell 1 and
child cell 1 at offsets 0 and 8 contributes nothing. -/
theorem zero_flux_no_coupling_witness :
    couplingEntries 0 8 ⟨1, 1, 0⟩ = [] ∧
    ∀ i j : ℕ, entrySum (couplingEntries 0 8 ⟨1, 1, 0⟩) i j = 0 :=
  zero_flux_no_coupling 0 8 ⟨1, 1, 0⟩ rfl

/-! ## Theorems for claim C7 -/

/-- Claim C7, counterexample: on the concrete fracture graph,
`sorted_nodes_of_edge` applied to its single edge returns the
1-dimensional fracture mesh first and the 2-dimensional mesh second, so
the second element is the higher-dimensional endpoint, not the
lower-dimensional one as the claim states.  The ascending order is forced
by the unit test: the test stores the edge flux from the second returned
handle, and the expected matrix of `test_upwind_2d_beta_positive` needs
that flux to be the 2-d grid's face flux of magnitude 2 (the 1-d grid's
fluxes are all zero for `beta = (2,0,0)`, which would make every coupling
block vanish). -/
theorem sorted_nodes_of_edge_cex :
    (gb1.sorted_nodes_of_edge (gb1.edges.getD 0 default)).1.dim = 1 ∧
    (gb1.sorted_nodes_of_edge (gb1.edges.getD 0 default)).2.dim = 2 := by
  constructor <;> rfl

/-- Claim C7 (amended): for every edge whose endpoints satisfy the graph
invariant (the parent is one dimension higher than the child),
`sorted_nodes_of_edge` returns the two endpoint meshes in ascending
dimension order: the first element is the lower-dimensional endpoint and
the second the higher-dimensional one. -/
theorem sorted_nodes_of_edge_ascending (g : MeshGraph) (e : Edge)
    (h : (g.nodes.getD e.parent default).dim
        = (g.nodes.getD e.child default).dim + 1) :
    (g.sorted_nodes_of_edge e).1.dim + 1 = (g.sorted_nodes_of_edge e).2.dim := by
  rw [MeshGraph.sorted_nodes_of_edge]
  have hle : ¬ (g.nodes.getD e.parent default).dim ≤ (g.nodes.getD e.child default).dim := by
    omega
  rw [if_neg hle]
  exact h.symm

/-- Claim C7 witness: instantiation at the concrete fracture graph's single
edge. -/
theorem sorted_nodes_of_edge_ascending_witness :
    (gb1.sorted_nodes_of_edge (gb1.edges.getD 0 default)).1.dim + 1
      = (gb1.sorted_nodes_of_edge (gb1.edges.getD 0 default)).2.dim :=
  sorted_nodes_of_edge_ascending gb1 (gb1.edges.getD 0 default) (by decide)

/-! ## Part B continued: geometry computation model for claim C8 -/

/-- Modelled from the spec (section 3): a mesh (or interface mortar mesh)
whose geometric quantities (volumes, areas, normals, centroids) are
computed on demand from its raw construction data and cached; the cache is
either entirely absent or entirely present. -/
structure GeoMesh where
  dim : ℕ
  rawData : List ℚ
  geom : Option (List ℚ)

/-- Modelled from the spec: computing the geometric quantities of one mesh
caches the result of the (external) geometric computation `calcGeom` on
first call and leaves the mesh unchanged when the cache is present. -/
def GeoMesh.computeGeometry (calcGeom : List ℚ → List ℚ) (m : GeoMesh) : GeoMesh :=
  match m.geom with
  | some _ => m
  | none => { m with geom := some (calcGeom m.rawData) }

/-- Modelled from the spec: a mesh graph as owner of its meshes and of the
interface mortar meshes, for the purpose of geometry computation. -/
structure GeoGraph where
  meshes : List GeoMesh
  interfaces : List GeoMesh

/-- Modelled from the spec (section 4.1): `compute_geometry` triggers the
geometric-quantity computation on every owned mesh and interface. -/
def GeoGraph.compute_geometry (calcGeom : List ℚ → List ℚ) (g : GeoGraph) : GeoGraph :=
  { meshes := g.meshes.map (GeoMesh.computeGeometry calcGeom),
    interfaces := g.interfaces.map (GeoMesh.computeGeometry calcGeom) }

lemma GeoMesh.computeGeometry_idem (calcGeom : List ℚ → List ℚ) (m : GeoMesh) :
    GeoMesh.computeGeometry calcGeom (GeoMesh.computeGeometry calcGeom m)
      = GeoMesh.computeGeometry calcGeom m := by
  cases m with
  | mk d r geo => cases geo <;> rfl

/-! ## Theorem for claim C8 -/

/-- Claim C8: `compute_geometry` on a mesh graph is idempotent: calling it a
second time leaves every owned mesh's and interface's geometric quantities
unchanged, whatever the external geometric computation is: the state after
two calls equals the state after one call. -/
theorem compute_geometry_idempotent (calcGeom : List ℚ → List ℚ) (g : GeoGraph) :
    GeoGraph.compute_geometry calcGeom (GeoGraph.compute_geometry calcGeom g)
      = GeoGraph.compute_geometry calcGeom g := by
  rw [GeoGraph.compute_geometry, GeoGraph.compute_geometry]
  have hmap : ∀ l : List GeoMesh,
      (l.map (GeoMesh.computeGeometry calcGeom)).map (GeoMesh.computeGeometry calcGeom)
        = l.map (GeoMesh.computeGeometry calcGeom) := by
    intro l
    rw [List.map_map]
    exact List.map_congr_left (fun m _ => GeoMesh.computeGeometry_idem calcGeom m)
  simp [hmap]

/-! ## Part B continued: failure semantics of the assembly engine (claim C5) -/

/-- Modelled from the spec (section 7): the handle of the mesh-graph node or
edge at which an assembly error arose, carried by every error for
diagnostics. -/
inductive Handle where
  | node : ℕ → Handle
  | edge : ℕ → Handle
deriving DecidableEq

/-- Modelled from the spec (section 7): the two error kinds that can abort
an assembly call, each naming the owning node or edge. -/
inductive AsmError where
  | missingProperty : Handle → AsmError
  | discretization : Handle → AsmError
deriving DecidableEq

/-- Modelled from the spec (section 4.5): walk a list in order, applying a
fallible per-element computation (numbered from `s`); the first error
aborts the whole walk and nothing of the partial work is returned. -/
def mapOrFail {α β : Type} (f : ℕ → α → Except AsmError β) :
    ℕ → List α → Except AsmError (List β)
  | _, [] => Except.ok []
  | s, a :: t =>
    match f s a with
    | Except.error e => Except.error e
    | Except.ok b =>
      match mapOrFail f (s + 1) t with
      | Except.error e => Except.error e
      | Except.ok bs => Except.ok (b :: bs)

/-- Modelled from the spec (sections 4.5 and 7): the assembly engine with
fallible discretization and coupling plug-ins.  It discretizes every node
in frozen order, then assembles every edge coupling, and returns either
the complete global system or the first error; by construction no
partially filled matrix or vector can be observed. -/
def MeshGraph.assembleWith
    (disc : ℕ → Mesh → Except AsmError (List (ℕ × ℕ × ℚ) × List (ℕ × ℚ)))
    (coup : ℕ → Edge → Except AsmError (List (ℕ × ℕ × ℚ))) (g : MeshGraph) :
    Except AsmError ((ℕ → ℕ → ℚ) × (ℕ → ℚ)) :=
  match mapOrFail disc 0 g.nodes with
  | Except.error e => Except.error e
  | Except.ok nodeParts =>
    match mapOrFail coup 0 g.edges with
    | Except.error e => Except.error e
    | Except.ok edgeParts =>
      Except.ok
        (fun i j => entrySum ((nodeParts.map Prod.fst).flatten ++ edgeParts.flatten) i j,
         fun i => rhsSum (nodeParts.map Prod.snd).flatten i)

lemma mapOrFail_error_of_elem {α β : Type} [Inhabited α]
    (f : ℕ → α → Except AsmError β) :
    ∀ (l : List α) (s k : ℕ) (e : AsmError), k < l.length →
      f (s + k) (l.getD k default) = Except.error e →
      ∃ e', mapOrFail f s l = Except.error e' := by
  intro l
  induction l with
  | nil =>
    intro s k e hk _
    simp at hk
  | cons a t ih =>
    intro s k e hk hf
    cases k with
    | zero =>
      have hf' : f s a = Except.error e := by simpa using hf
      exact ⟨e, by simp [mapOrFail, hf']⟩
    | succ k =>
      have hk' : k < t.length := by simpa using hk
      have hf' : f (s + 1 + k) (t.getD k default) = Except.error e := by
        have harith : s + 1 + k = s + (k + 1) := by omega
        rw [harith]
        simpa using hf
      obtain ⟨e', he'⟩ := ih (s + 1) k e hk' hf'
      cases hfa : f s a with
      | error e2 => exact ⟨e2, by simp [mapOrFail, hfa]⟩
      | ok b => exact ⟨e', by simp [mapOrFail, hfa, he']⟩

lemma mapOrFail_error_src {α β : Type} [Inhabited α]
    (f : ℕ → α → Except AsmError β) :
    ∀ (l : List α) (s : ℕ) (e' : AsmError), mapOrFail f s l = Except.error e' →
      ∃ k, k < l.length ∧ f (s + k) (l.getD k default) = Except.error e' := by
  intro l
  induction l with
  | nil =>
    intro s e' h
    simp [mapOrFail] at h
  | cons a t ih =>
    intro s e' h
    cases hfa : f s a with
    | error e2 =>
      have h2 : e2 = e' := by
        simp only [mapOrFail, hfa] at h
        exact (Except.error.injEq _ _).mp h
      subst h2
      exact ⟨0, by simp, by simpa using hfa⟩
    | ok b =>
      simp only [mapOrFail, hfa] at h
      cases hmt : mapOrFail f (s + 1) t with
      | error e3 =>
        rw [hmt] at h
        have h3 : e3 = e' := (Except.error.injEq _ _).mp h
        subst h3
        obtain ⟨k, hk, hf⟩ := ih (s + 1) e3 hmt
        refine ⟨k + 1, by simpa using hk, ?_⟩
        have harith : s + (k + 1) = s + 1 + k := by omega
        rw [harith]
        simpa using hf
      | ok bs =>
        rw [hmt] at h
        simp at h

/-! ## Theorem for claim C5 -/

/-- Claim C5: if a `MissingPropertyError` or `DiscretizationError` is raised
at any single node or edge during assembly, the whole assembly call fails:
the engine returns an error (so no partial matrix or vector exists), and
the error it returns is itself one raised at a specific node or edge of
the graph, identifying the offender; a missing required property can never
be silently treated as a zero contribution. -/
theorem assembly_aborts_on_error
    (disc : ℕ → Mesh → Except AsmError (List (ℕ × ℕ × ℚ) × List (ℕ × ℚ)))
    (coup : ℕ → Edge → Except AsmError (List (ℕ × ℕ × ℚ))) (g : MeshGraph)
    (h : (∃ k e, k < g.nodes.length ∧ disc k (g.nodes.getD k default) = Except.error e) ∨
         (∃ k e, k < g.edges.length ∧ coup k (g.edges.getD k default) = Except.error e)) :
    ∃ e', g.assembleWith disc coup = Except.error e' ∧
      ((∃ k, k < g.nodes.length ∧ disc k (g.nodes.getD k default) = Except.error e') ∨
       (∃ k, k < g.edges.length ∧ coup k (g.edges.getD k default) = Except.error e')) := by
  rcases h with ⟨k, e, hk, he⟩ | ⟨k, e, hk, he⟩
  · obtain ⟨e', he'⟩ := mapOrFail_error_of_elem disc g.nodes 0 k e hk (by simpa using he)
    obtain ⟨k', hk', hf⟩ := mapOrFail_error_src disc g.nodes 0 e' he'
    exact ⟨e', by simp [MeshGraph.assembleWith, he'], Or.inl ⟨k', hk', by simpa using hf⟩⟩
  · cases hn : mapOrFail disc 0 g.nodes with
    | error e2 =>
      obtain ⟨k', hk', hf⟩ := mapOrFail_error_src disc g.nodes 0 e2 hn
      exact ⟨e2, by simp [MeshGraph.assembleWith, hn], Or.inl ⟨k', hk', by simpa using hf⟩⟩
    | ok nodeParts =>
      obtain ⟨e', he'⟩ := mapOrFail_error_of_elem coup g.edges 0 k e hk (by simpa using he)
      obtain ⟨k', hk', hf⟩ := mapOrFail_error_src coup g.edges 0 e' he'
      exact ⟨e', by simp [MeshGraph.assembleWith, hn, he'], Or.inr ⟨k', hk', by simpa using hf⟩⟩

/-- A discretization plug-in that fails on every mesh with a
missing-property error naming the offending node, used to witness the
abort-on-error theorem. -/
def discFailing : ℕ → Mesh → Except AsmError (List (ℕ × ℕ × ℚ) × List (ℕ × ℚ)) :=
  fun k _ => Except.error (AsmError.missingProperty (Handle.node k))

/-- A coupling plug-in that always succeeds with no contributions. -/
def coupTrivial : ℕ → Edge → Except AsmError (List (ℕ × ℕ × ℚ)) :=
  fun _ _ => Except.ok []

/-- Claim C5 witness: on the concrete fracture graph with a plug-in whose
node 0 lacks a required property, assembly returns an error raised at a
node or edge of the graph. -/
theorem assembly_aborts_on_error_witness :
    ∃ e', gb1.assembleWith discFailing coupTrivial = Except.error e' ∧
      ((∃ k, k < gb1.nodes.length ∧
          discFailing k (gb1.nodes.getD k default) = Except.error e') ∨
       (∃ k, k < gb1.edges.length ∧
          coupTrivial k (gb1.edges.getD k default) = Except.error e')) :=
  assembly_aborts_on_error discFailing coupTrivial gb1
    (Or.inl ⟨0, AsmError.missingProperty (Handle.node 0), by decide, rfl⟩)
